import Mathlib

/-
Verification of the sapphirejs/filesystem package: a shallow embedding of
the `Local` driver (lib/drivers/local.js), the `Filesystem` facade
(lib/filesystem.js) and the package entry point (index.js), with theorems
settling the specification's claims about them.

Modelling conventions:
- A path handed to the driver is modelled after `_resolve` as a list of
  segments (`SPath`); raw, pre-`_resolve` paths appear separately as
  `RawPath` where resolution itself is under scrutiny.
- The native filesystem is a finite association list from paths to
  entries.  An entry records its `lstat` kind (regular file with its
  UTF-8 contents, directory, or symbolic link) and an `accessOk` flag:
  the outcome of `fs.access(path, R_OK)` on that path (for a symbolic
  link this is the outcome on the dereferenced target, since `access`
  follows links while `lstat` does not).
- A JavaScript `async` method that can reject is an `Except FsError`
  value; `await` of a rejecting call is error propagation.  Methods that
  mutate the filesystem additionally return the new state.
-/

namespace SFS

/-- Kind of a filesystem entry as reported by the native `lstat`, which
does not dereference symbolic links.  A symbolic link records only
whether its target is a directory (no claim reads through a link). -/
inductive EntryKind
  | file (content : String)
  | dir
  | symlink (targetIsDir : Bool)
deriving DecidableEq, Repr

/-- A filesystem entry: its `lstat` kind plus the outcome of the native
`fs.access(path, R_OK)` readability probe on that path. -/
structure Entry where
  kind : EntryKind
  accessOk : Bool
deriving DecidableEq, Repr

/-- A driver-level path, after `Local._resolve`: a list of segments. -/
abbrev SPath := List String

/-- The native filesystem: a finite association list from paths to
entries. -/
abbrev FSState := List (SPath × Entry)

/-- Look up the entry stored at a path. -/
def lookupEntry : FSState → SPath → Option Entry
  | [], _ => none
  | (k, e) :: rest, p => if k = p then some e else lookupEntry rest p

/-- Remove the entry stored at a path (effect of native `unlink` and
`rmdir` on the store). -/
def removeEntry : FSState → SPath → FSState
  | [], _ => []
  | (k, e) :: rest, p =>
    if k = p then removeEntry rest p else (k, e) :: removeEntry rest p

/-- Store an entry at a path, replacing any previous one. -/
def setEntry (fs : FSState) (p : SPath) (e : Entry) : FSState :=
  (p, e) :: removeEntry fs p

/-- If `k` is a direct child of `p` (that is, `k = p ++ [n]`), return
the child's name `n`. -/
def childOf (p k : SPath) : Option String :=
  match k.drop p.length with
  | [n] => if k.take p.length = p then some n else none
  | _ => none

/-- Names of the direct children of `p`, in store order (result of the
native `readdir`). -/
def childrenNames : FSState → SPath → List String
  | [], _ => []
  | (k, _) :: rest, p =>
    match childOf p k with
    | some n => n :: childrenNames rest p
    | none => childrenNames rest p

/-- The driver's classified failures (lib/errors/*.js) plus a kind for
untranslated native-layer failures, which the driver propagates as-is. -/
inductive FsError
  | fileDoesntExist
  | fileExists
  | invalidPath
  | native
deriving DecidableEq, Repr

namespace Local

/-- `Local.exists(path)`: resolves `false` exactly when the native
`fs.access(path, R_OK)` errors (absent path or no read access), `true`
otherwise.  The source promise only ever resolves, never rejects, which
the `Bool` (rather than `Except`) return type captures. -/
def exists' (fs : FSState) (p : SPath) : Bool :=
  match lookupEntry fs p with
  | some e => e.accessOk
  | none => false

/-- The kind reported by native `lstat`, `none` when `lstat` errors. -/
def lstatKind (fs : FSState) (p : SPath) : Option EntryKind :=
  (lookupEntry fs p).map Entry.kind

/-- `Local.isFile(path)`: rejects with `FileDoesntExist` when
`exists(path)` is false, otherwise reports whether `lstat` sees a
regular file. -/
def isFile (fs : FSState) (p : SPath) : Except FsError Bool :=
  if exists' fs p = false then .error .fileDoesntExist
  else
    match lstatKind fs p with
    | some (.file _) => .ok true
    | some _ => .ok false
    | none => .error .native

/-- `Local.isDirectory(path)`: rejects with `FileDoesntExist` when
`exists(path)` is false, otherwise reports whether `lstat` sees a
directory. -/
def isDirectory (fs : FSState) (p : SPath) : Except FsError Bool :=
  if exists' fs p = false then .error .fileDoesntExist
  else
    match lstatKind fs p with
    | some .dir => .ok true
    | some _ => .ok false
    | none => .error .native

/-- `Local.isSymbolicLink(path)`: rejects with `FileDoesntExist` when
`exists(path)` is false, otherwise reports whether `lstat` (which does
not dereference) sees a symbolic link. -/
def isSymbolicLink (fs : FSState) (p : SPath) : Except FsError Bool :=
  if exists' fs p = false then .error .fileDoesntExist
  else
    match lstatKind fs p with
    | some (.symlink _) => .ok true
    | some _ => .ok false
    | none => .error .native

/-- Native `fs.readFile(path, utf8)`.  Reading a directory fails with a
raw native error; dereferencing a symbolic link is left as a native
error too, since no claim reads through a link. -/
def nativeReadFile (fs : FSState) (p : SPath) : Except FsError String :=
  match lstatKind fs p with
  | some (.file c) => .ok c
  | some .dir => .error .native
  | some (.symlink _) => .error .native
  | none => .error .native

/-- `Local.read(path)`: rejects with `FileDoesntExist` when the path
does not exist, with `InvalidPath` when it is neither a regular file
nor a symbolic link (the source short-circuits: the symbolic-link check
runs only when the file check was false), then delegates to the native
read. -/
def read (fs : FSState) (p : SPath) : Except FsError String :=
  if exists' fs p = false then .error .fileDoesntExist
  else
    match isFile fs p with
    | .error e => .error e
    | .ok f =>
      if f then nativeReadFile fs p
      else
        match isSymbolicLink fs p with
        | .error e => .error e
        | .ok l =>
          if l then nativeReadFile fs p
          else .error .invalidPath

/-- Native `fs.writeFile(path, data, utf8)`: truncate and write,
creating the file when absent, keeping the readability of an entry that
is overwritten. -/
def nativeWriteFile (fs : FSState) (p : SPath) (d : String) :
    Except FsError FSState :=
  match lookupEntry fs p with
  | some e =>
    match e.kind with
    | .dir => .error .native
    | _ => .ok (setEntry fs p { kind := .file d, accessOk := e.accessOk })
  | none => .ok (setEntry fs p { kind := .file d, accessOk := true })

/-- `Local.write(path, data)`: awaits `isFile(path)` (so a
`FileDoesntExist` rejection from it propagates), rejects with
`InvalidPath` when that check returns false, then delegates to the
native write. -/
def write (fs : FSState) (p : SPath) (d : String) : Except FsError FSState :=
  match isFile fs p with
  | .error e => .error e
  | .ok f => if f then nativeWriteFile fs p d else .error .invalidPath

/-- Native `fs.unlink(path)`: removes a non-directory entry. -/
def nativeUnlink (fs : FSState) (p : SPath) : Except FsError FSState :=
  match lstatKind fs p with
  | none => .error .native
  | some .dir => .error .native
  | some _ => .ok (removeEntry fs p)

/-- Native `fs.rmdir(path)`: removes a directory entry only when it is
empty. -/
def nativeRmdir (fs : FSState) (p : SPath) : Except FsError FSState :=
  match lstatKind fs p with
  | none => .error .native
  | some .dir =>
    if childrenNames fs p = [] then .ok (removeEntry fs p)
    else .error .native
  | some _ => .error .native

/-- `Local.delete(path)`: rejects with `FileDoesntExist` when the path
does not exist; unlinks a regular file or symbolic link (short-circuit
disjunction as in the source), removes an empty directory with `rmdir`,
and otherwise rejects with `InvalidPath`. -/
def delete (fs : FSState) (p : SPath) : Except FsError FSState :=
  if exists' fs p = false then .error .fileDoesntExist
  else
    match isFile fs p with
    | .error e => .error e
    | .ok f =>
      if f then nativeUnlink fs p
      else
        match isSymbolicLink fs p with
        | .error e => .error e
        | .ok l =>
          if l then nativeUnlink fs p
          else
            match isDirectory fs p with
            | .error e => .error e
            | .ok d => if d then nativeRmdir fs p else .error .invalidPath

/-- Native `fs.readdir(path)`: the direct children of a directory. -/
def nativeReaddir (fs : FSState) (p : SPath) : Except FsError (List String) :=
  match lstatKind fs p with
  | some .dir => .ok (childrenNames fs p)
  | some _ => .error .native
  | none => .error .native

/-- `Local.readDir(path)`: rejects with `FileDoesntExist` when the path
does not exist, then lists the directory non-recursively. -/
def readDir (fs : FSState) (p : SPath) : Except FsError (List String) :=
  if exists' fs p = false then .error .fileDoesntExist
  else nativeReaddir fs p

/-- The `for (const file of files)` loop of `Local.deleteAll`,
threading the filesystem state through the sequential awaits.  The
joined child path `fsPath.join(path, file)` is `p ++ [file]`; the
recursive `deleteAll` call is passed in as `recurse`. -/
def deleteAllLoop (recurse : FSState → SPath → Except FsError FSState) :
    FSState → SPath → List String → Except FsError FSState
  | fs, _, [] => .ok fs
  | fs, p, file :: rest =>
    match isFile fs (p ++ [file]) with
    | .error e => .error e
    | .ok f =>
      match (if f then delete fs (p ++ [file]) else recurse fs (p ++ [file])) with
      | .error e => .error e
      | .ok fs2 => deleteAllLoop recurse fs2 p rest

/-- `Local.deleteAll(path)`: lists the directory, then for each listed
name deletes the joined child when `isFile` holds and recurses into it
otherwise, and finally deletes `path` itself.  The `fuel` argument
bounds the recursion depth of the shallow embedding; the source
recursion is bounded by the directory tree's height. -/
def deleteAll : Nat → FSState → SPath → Except FsError FSState
  | 0, _, _ => .error .native
  | fuel + 1, fs, p =>
    match readDir fs p with
    | .error e => .error e
    | .ok files =>
      match deleteAllLoop (fun st q => deleteAll fuel st q) fs p files with
      | .error e => .error e
      | .ok fs2 => delete fs2 p

/-- Outcome of a native `mkdir(path)` attempt, determined by the entry
at `path` and at its parent. -/
inductive MkdirOutcome
  | exist
  | noent
  | notdir
  | ok
deriving DecidableEq, Repr

/-- Decide the outcome of native `mkdir(path)`: the path already
existing, a missing parent, a non-directory parent, or success.  A path
with an empty parent hangs off the root, which always exists. -/
def mkdirCheck (fs : FSState) (p : SPath) : MkdirOutcome :=
  match lookupEntry fs p with
  | some _ => .exist
  | none =>
    if p.dropLast = [] then .ok
    else
      match lookupEntry fs p.dropLast with
      | none => .noent
      | some e =>
        match e.kind with
        | .dir => .ok
        | _ => .notdir

/-- Native `fs.mkdir(path, mode)`: creates a readable directory entry on
success and fails with a raw native error otherwise.  Permission bits
are not part of the entry model. -/
def nativeMkdir (fs : FSState) (p : SPath) : Except FsError FSState :=
  match mkdirCheck fs p with
  | .ok => .ok (setEntry fs p { kind := .dir, accessOk := true })
  | _ => .error .native

/-- One per-segment `fs.mkdir(dir, mode, ...)` attempt of the recursive
branch of `Local.createDir`, with its error ignored.  In the source the
promise has already been resolved synchronously when any mkdir callback
runs, so a `reject` there (for a non-EEXIST error) is a no-op and every
per-segment failure is observationally ignored. -/
def mkdirQuiet (fs : FSState) (p : SPath) : FSState :=
  match nativeMkdir fs p with
  | .ok fs2 => fs2
  | .error _ => fs

/-- The `reduce` walk of recursive `Local.createDir`: starting from the
empty parent, join each successive segment onto the accumulated parent
and attempt `mkdir` on it. -/
def mkSegs (fs : FSState) (parent : SPath) (segs : List String) : FSState :=
  match segs with
  | [] => fs
  | current :: rest =>
    let dir := parent ++ [current]
    mkSegs (mkdirQuiet fs dir) dir rest

/-- `Local.createDir(path, mode, recursively)`.  Non-recursive branch:
rejects with `FileExists` when `exists(path)` holds, else native
`mkdir`.  Recursive branch: walks the segments left to right attempting
`mkdir` on each prefix, and resolves `true` unconditionally — the
source calls `resolve(true)` synchronously after issuing the mkdirs, so
the per-segment callbacks can no longer reject the settled promise. -/
def createDir (fs : FSState) (p : SPath) (_mode : Nat) (recursively : Bool) :
    Except FsError FSState :=
  if recursively then .ok (mkSegs fs [] p)
  else
    if exists' fs p = true then .error .fileExists
    else nativeMkdir fs p

end Local

/-- The `Filesystem` facade: the default driver given to the
constructor and the one-shot override driver set by `in`.  The
constructor initialises the override to `null`. -/
structure Filesystem (δ : Type) where
  defaultDriver : δ
  tempDriver : Option δ

/-- `new Filesystem(driver)`: default driver set, no pending override. -/
def Filesystem.new {δ : Type} (driver : δ) : Filesystem δ :=
  { defaultDriver := driver, tempDriver := none }

/-- `Filesystem.in(driver)` (named `in'` here because `in` is a Lean
keyword): records `driver` as the one-shot override, replacing any
pending one, and returns the facade itself. -/
def Filesystem.in' {δ : Type} (fsys : Filesystem δ) (driver : δ) :
    Filesystem δ :=
  { fsys with tempDriver := some driver }

/-- `Filesystem._resolveDriver()`: picks the override when one is
pending and the default otherwise, and clears the override. -/
def Filesystem.resolveDriver {δ : Type} (fsys : Filesystem δ) :
    δ × Filesystem δ :=
  (fsys.tempDriver.getD fsys.defaultDriver, { fsys with tempDriver := none })

/-- The body every facade operation shares:
`const driver = this._resolveDriver(); return driver.method(args)`.
The delegated call's outcome `op` is computed against the resolved
driver; the override is already cleared in the returned facade state,
whether `op`'s result is a success or a failure value. -/
def Filesystem.dispatch {δ α : Type} (fsys : Filesystem δ) (op : δ → α) :
    α × Filesystem δ :=
  let r := fsys.resolveDriver
  (op r.1, r.2)

/-- A raw, pre-`_resolve` path string, in split form: whether it began
with the separator, and its segments. -/
structure RawPath where
  absolute : Bool
  segs : List String
deriving DecidableEq, Repr

/-- Segment normalization of Node's `path.resolve`: drop empty and `.`
segments, let `..` pop the previous segment. -/
def normalizeSegs (segs : List String) : List String :=
  segs.foldl
    (fun acc seg =>
      if seg = "" ∨ seg = "." then acc
      else if seg = ".." then acc.dropLast
      else acc ++ [seg])
    []

/-- `Local._resolve(path)`, that is Node's `path.resolve(path)`: purely
syntactic (no filesystem probe), prefixing the current working
directory when the input is relative, always yielding an absolute
path. -/
def fsPathResolve (cwd p : RawPath) : RawPath :=
  { absolute := true
    segs := normalizeSegs (if p.absolute then p.segs else cwd.segs ++ p.segs) }

/-- The successive path arguments that the recursive branch of
`Local.createDir` passes to native `fs.mkdir`: the source reduces over
`join(dirname(path), basename(path)).split(sep)` starting from the
empty parent, so for a relative input each `mkdir` receives a relative
prefix of the raw path, never passed through `_resolve`.  (An absolute
input fares no better: its leading separator is lost by the split and
the prefixes are again relative.) -/
def createDirRecursiveMkdirArgs (p : RawPath) : List RawPath :=
  (p.segs.foldl
    (fun (acc : List RawPath × List String) current =>
      let dir := acc.2 ++ [current]
      (acc.1 ++ [{ absolute := false, segs := dir }], dir))
    ([], [])).1

/-- Split a module specifier on the separator character. -/
def splitSpecAux (sep : Char) : List Char → List Char → List (List Char)
  | [], cur => [cur.reverse]
  | c :: rest, cur =>
    if c = sep then cur.reverse :: splitSpecAux sep rest []
    else splitSpecAux sep rest (c :: cur)

/-- Split a module specifier string on the path separator. -/
def splitSpec (s : String) : List String :=
  (splitSpecAux '/' s.data []).map List.asString

/-- Drop a trailing `.js` extension, which Node's require resolution
ignores. -/
def stripJsExt (s : String) : String :=
  match s.data.reverse with
  | 's' :: 'j' :: '.' :: rest => rest.reverse.asString
  | _ => s

/-- Node module resolution of a relative require specifier against the
directory of the requiring file: the canonical in-package path of the
required module. -/
def resolveModule (base : List String) (spec : String) : List String :=
  (splitSpec (stripJsExt spec)).foldl
    (fun acc seg =>
      if seg = "" ∨ seg = "." then acc
      else if seg = ".." then acc.dropLast
      else acc ++ [seg])
    base

/-- index.js: `FileDoesntExist = require('./lib/errors/file-doesnt-exist.js')`. -/
def indexFileDoesntExist : List String :=
  resolveModule [] ("./lib/errors/file-doesnt-exist.js")

/-- index.js: `FileExists = require('./lib/errors/invalid-path.js')`. -/
def indexFileExists : List String :=
  resolveModule [] ("./lib/errors/invalid-path.js")

/-- index.js: `InvalidPath = require('./lib/errors/invalid-path.js')`. -/
def indexInvalidPath : List String :=
  resolveModule [] ("./lib/errors/invalid-path.js")

/-- local.js: `FileDoesntExist = require('../errors/file-doesnt-exist')`,
resolved from `lib/drivers/`. -/
def localFileDoesntExist : List String :=
  resolveModule ["lib", "drivers"] ("../errors/file-doesnt-exist")

/-- local.js: `FileExists = require('../errors/file-exists')`, resolved
from `lib/drivers/`; the class `copy`, `createDir` and `rename` throw
when the target already exists. -/
def localFileExists : List String :=
  resolveModule ["lib", "drivers"] ("../errors/file-exists")

/-- local.js: `InvalidPath = require('../errors/invalid-path')`,
resolved from `lib/drivers/`. -/
def localInvalidPath : List String :=
  resolveModule ["lib", "drivers"] ("../errors/invalid-path")

/-- A regular, readable file with the given contents. -/
def entryFile (c : String) : Entry := { kind := EntryKind.file c, accessOk := true }

/-- A readable directory. -/
def entryDir : Entry := { kind := EntryKind.dir, accessOk := true }

/-- A present but unreadable regular file: `fs.access(R_OK)` fails. -/
def entryUnreadable : Entry := { kind := EntryKind.file ("secret"), accessOk := false }

/-- A symbolic link whose dereferenced target is accessible. -/
def entryLink (targetIsDir : Bool) : Entry :=
  { kind := EntryKind.symlink targetIsDir, accessOk := true }

/-- A small concrete filesystem used by the witnesses: a readable file,
a directory, an unreadable file, and a symbolic link to a file. -/
def sampleFS : FSState :=
  [ (["a"], entryFile ("hello"))
  , (["d"], entryDir)
  , (["u"], entryUnreadable)
  , (["l"], entryLink false) ]

/-- Decidable equality of driver results, for evaluating the model at
concrete inputs. -/
instance {ε α : Type} [DecidableEq ε] [DecidableEq α] :
    DecidableEq (Except ε α) := fun a b =>
  match a, b with
  | .error e1, .error e2 =>
    if h : e1 = e2 then isTrue (congrArg Except.error h)
    else isFalse (fun he => h (Except.error.inj he))
  | .ok v1, .ok v2 =>
    if h : v1 = v2 then isTrue (congrArg Except.ok h)
    else isFalse (fun he => h (Except.ok.inj he))
  | .error _, .ok _ => isFalse (fun he => Except.noConfusion he)
  | .ok _, .error _ => isFalse (fun he => Except.noConfusion he)

/-- A path extended by one segment is a different path. -/
theorem append_singleton_ne (p : SPath) (a : String) : p ++ [a] ≠ p := by
  intro h
  have := congrArg List.length h
  simp at this

/-- Extending one path by two different segments gives different paths. -/
theorem append_singleton_ne_of_ne (p : SPath) {a b : String} (h : a ≠ b) :
    p ++ [a] ≠ p ++ [b] := by
  intro he
  have hd := congrArg (fun l => List.drop p.length l) he
  simp only [List.drop_left] at hd
  exact h (List.cons.injEq .. ▸ hd).1

/-- Removing one key leaves lookups of any other key unchanged. -/
theorem lookupEntry_removeEntry_ne (fs : FSState) (p q : SPath) (h : q ≠ p) :
    lookupEntry (removeEntry fs p) q = lookupEntry fs q := by
  induction fs with
  | nil => rfl
  | cons kv rest ih =>
    obtain ⟨k, e⟩ := kv
    by_cases hk : k = p
    · subst hk
      simp [removeEntry, lookupEntry, ih, Ne.symm h]
    · simp [removeEntry, hk, lookupEntry, ih]

/-- Looking up the key just stored. -/
theorem lookupEntry_setEntry_self (fs : FSState) (p : SPath) (e : Entry) :
    lookupEntry (setEntry fs p e) p = some e := by
  simp [setEntry, lookupEntry]

/-- Storing at one key leaves lookups of any other key unchanged. -/
theorem lookupEntry_setEntry_ne (fs : FSState) (p q : SPath) (e : Entry)
    (h : q ≠ p) :
    lookupEntry (setEntry fs p e) q = lookupEntry fs q := by
  simp [setEntry, lookupEntry, Ne.symm h, lookupEntry_removeEntry_ne fs p q h]

/-- A quiet per-segment mkdir leaves lookups of any other key
unchanged. -/
theorem mkdirQuiet_lookup_ne (fs : FSState) (p q : SPath) (h : q ≠ p) :
    lookupEntry (Local.mkdirQuiet fs p) q = lookupEntry fs q := by
  unfold Local.mkdirQuiet Local.nativeMkdir
  cases hc : Local.mkdirCheck fs p <;>
    simp [lookupEntry_setEntry_ne fs p q _ h]

/-- A quiet per-segment mkdir never disturbs an entry that is already
present (a present target makes the mkdir fail with EEXIST). -/
theorem mkdirQuiet_preserves (fs : FSState) (p q : SPath) (e : Entry)
    (h : lookupEntry fs q = some e) :
    lookupEntry (Local.mkdirQuiet fs p) q = some e := by
  by_cases hq : q = p
  · subst hq
    unfold Local.mkdirQuiet Local.nativeMkdir Local.mkdirCheck
    simp [h]
  · rw [mkdirQuiet_lookup_ne fs p q hq]
    exact h

/-- The recursive createDir walk only ever touches paths longer than
its accumulated parent: lookups at or below the parent's length are
unchanged. -/
theorem mkSegs_lookup_of_le (segs : List String) :
    ∀ (parent : SPath) (fs : FSState) (r : SPath),
      r.length ≤ parent.length →
      lookupEntry (Local.mkSegs fs parent segs) r = lookupEntry fs r := by
  induction segs with
  | nil => intro parent fs r _; rfl
  | cons s rest ih =>
    intro parent fs r hr
    show lookupEntry
        (Local.mkSegs (Local.mkdirQuiet fs (parent ++ [s])) (parent ++ [s]) rest) r
      = lookupEntry fs r
    rw [ih (parent ++ [s]) _ r
        (by simp only [List.length_append, List.length_cons, List.length_nil]; omega)]
    refine mkdirQuiet_lookup_ne fs (parent ++ [s]) r ?_
    intro he
    have hlen := congrArg List.length he
    simp only [List.length_append, List.length_cons, List.length_nil] at hlen
    omega

/-- The recursive createDir walk never disturbs an entry that is
already present. -/
theorem mkSegs_preserves (segs : List String) :
    ∀ (parent : SPath) (fs : FSState) (q : SPath) (e : Entry),
      lookupEntry fs q = some e →
      lookupEntry (Local.mkSegs fs parent segs) q = some e := by
  induction segs with
  | nil => intro _ _ _ _ h; exact h
  | cons s rest ih =>
    intro parent fs q e h
    exact ih (parent ++ [s]) _ q e
      (mkdirQuiet_preserves fs (parent ++ [s]) q e h)

/-- The mkdir outcome depends only on the entries at the target and at
its parent. -/
theorem mkdirCheck_congr (fs1 fs2 : FSState) (q : SPath)
    (h1 : lookupEntry fs1 q = lookupEntry fs2 q)
    (h2 : lookupEntry fs1 q.dropLast = lookupEntry fs2 q.dropLast) :
    Local.mkdirCheck fs1 q = Local.mkdirCheck fs2 q := by
  unfold Local.mkdirCheck
  rw [h1, h2]

/-- Re-attempting the mkdir of a prefix after the rest of the walk has
run is a no-op: either the prefix is now present (EEXIST, ignored) or
its mkdir fails again for the same reason (the deeper walk only touches
longer paths). -/
theorem mkdirQuiet_mkSegs_fix (rest : List String) (fs : FSState) (q : SPath) :
    Local.mkdirQuiet (Local.mkSegs (Local.mkdirQuiet fs q) q rest) q
      = Local.mkSegs (Local.mkdirQuiet fs q) q rest := by
  cases hl : lookupEntry (Local.mkdirQuiet fs q) q with
  | some e =>
    have hfinal : lookupEntry (Local.mkSegs (Local.mkdirQuiet fs q) q rest) q
        = some e := mkSegs_preserves rest q _ q e hl
    generalize hF : Local.mkSegs (Local.mkdirQuiet fs q) q rest = F at hfinal ⊢
    unfold Local.mkdirQuiet Local.nativeMkdir Local.mkdirCheck
    simp [hfinal]
  | none =>
    have hq0 : lookupEntry fs q = none := by
      cases hq : lookupEntry fs q with
      | none => rfl
      | some e => rw [mkdirQuiet_preserves fs q q e hq] at hl; cases hl
    have hcheck : Local.mkdirCheck fs q ≠ Local.MkdirOutcome.ok := by
      intro hok
      have hset : Local.mkdirQuiet fs q
          = setEntry fs q { kind := EntryKind.dir, accessOk := true } := by
        unfold Local.mkdirQuiet Local.nativeMkdir
        rw [hok]
      rw [hset, lookupEntry_setEntry_self] at hl
      cases hl
    have hfs : Local.mkdirQuiet fs q = fs := by
      unfold Local.mkdirQuiet Local.nativeMkdir
      cases hc : Local.mkdirCheck fs q with
      | ok => exact absurd hc hcheck
      | exist => rfl
      | noent => rfl
      | notdir => rfl
    rw [hfs] at hl ⊢
    have hfq : lookupEntry (Local.mkSegs fs q rest) q = none := by
      rw [mkSegs_lookup_of_le rest q fs q (le_refl _)]
      exact hq0
    have hfp : lookupEntry (Local.mkSegs fs q rest) q.dropLast
        = lookupEntry fs q.dropLast := by
      refine mkSegs_lookup_of_le rest q fs q.dropLast ?_
      have := List.length_dropLast q
      omega
    have hcheck2 : Local.mkdirCheck (Local.mkSegs fs q rest) q
        = Local.mkdirCheck fs q := by
      refine mkdirCheck_congr _ _ q ?_ hfp
      rw [hfq, hq0]
    unfold Local.mkdirQuiet Local.nativeMkdir
    rw [hcheck2]
    cases hc : Local.mkdirCheck fs q with
    | ok => exact absurd hc hcheck
    | exist => rfl
    | noent => rfl
    | notdir => rfl

/-- Running the recursive createDir walk a second time over the same
segments changes nothing: every prefix attempt is now a no-op. -/
theorem mkSegs_idem (segs : List String) :
    ∀ (parent : SPath) (fs : FSState),
      Local.mkSegs (Local.mkSegs fs parent segs) parent segs
        = Local.mkSegs fs parent segs := by
  induction segs with
  | nil => intro _ _; rfl
  | cons s rest ih =>
    intro parent fs
    show Local.mkSegs
        (Local.mkdirQuiet
          (Local.mkSegs (Local.mkdirQuiet fs (parent ++ [s])) (parent ++ [s]) rest)
          (parent ++ [s]))
        (parent ++ [s]) rest
      = Local.mkSegs (Local.mkdirQuiet fs (parent ++ [s])) (parent ++ [s]) rest
    rw [mkdirQuiet_mkSegs_fix rest fs (parent ++ [s])]
    exact ih (parent ++ [s]) (Local.mkdirQuiet fs (parent ++ [s]))

/-- C1 counterexample: on the empty filesystem the path `["a"]` does
not exist, and `write` rejects with `FileDoesntExist` (propagated from
the awaited `isFile` precondition), not with `InvalidPath` as the claim
states. -/
theorem write_missing_not_invalidPath :
    Local.write ([] : FSState) ["a"] ("x") = .error .fileDoesntExist
    ∧ Local.write ([] : FSState) ["a"] ("x") ≠ .error .invalidPath := by
  refine ⟨rfl, fun h => ?_⟩
  rw [show Local.write ([] : FSState) ["a"] ("x")
      = Except.error FsError.fileDoesntExist from rfl] at h
  exact FsError.noConfusion (Except.error.inj h)

/-- C1 (amended): `write(p, data)` fails with `FileDoesntExist` when
`p` does not exist (or is unreadable, which the driver treats
identically), and with `InvalidPath` when `p` exists, is readable, and
is a directory. -/
theorem write_error_kinds :
    (∀ (fs : FSState) (p : SPath) (d : String),
        Local.exists' fs p = false →
        Local.write fs p d = .error .fileDoesntExist)
    ∧ (∀ (fs : FSState) (p : SPath) (d : String) (e : Entry),
        lookupEntry fs p = some e → e.accessOk = true →
        e.kind = EntryKind.dir →
        Local.write fs p d = .error .invalidPath) := by
  constructor
  · intro fs p d h
    simp [Local.write, Local.isFile, h]
  · intro fs p d e hl ha hk
    simp [Local.write, Local.isFile, Local.exists', Local.lstatKind, hl, ha, hk]

/-- C1 witness: the amended behaviour at concrete inputs — a missing
path and an existing directory. -/
theorem write_error_kinds_witness :
    Local.write ([] : FSState) ["z"] ("data") = .error .fileDoesntExist
    ∧ Local.write sampleFS ["d"] ("data") = .error .invalidPath :=
  ⟨write_error_kinds.1 ([] : FSState) ["z"] ("data") (by decide),
   write_error_kinds.2 sampleFS ["d"] ("data") entryDir (by decide) (by decide)
     (by decide)⟩

/-- C2: with default driver `A`, after `in(B)` the next dispatched
operation runs against `B`, and the facade state returned alongside
that operation's outcome (success or failure value alike) has the
override cleared, so any subsequent dispatch runs against `A`. -/
theorem override_one_shot {δ α β : Type} :
    ∀ (A B : δ) (op : δ → α) (op2 : δ → β),
      Filesystem.dispatch ((Filesystem.new A).in' B) op = (op B, Filesystem.new A)
      ∧ Filesystem.dispatch (Filesystem.dispatch ((Filesystem.new A).in' B) op).2 op2
          = (op2 A, Filesystem.new A) := by
  intro A B op op2
  exact ⟨rfl, rfl⟩

/-- C3 evaluation: index.js resolves its `FileExists` export from
`lib/errors/invalid-path`, so the exported `FileExists` is the same
module as the exported `InvalidPath` and differs from the
`lib/errors/file-exists` module that the local driver's `copy`,
`createDir` and `rename` throw; the other two error exports do match
the driver's requires. -/
theorem index_fileExists_require_bug :
    indexFileExists = indexInvalidPath
    ∧ indexFileExists ≠ localFileExists
    ∧ indexFileDoesntExist = localFileDoesntExist
    ∧ indexInvalidPath = localInvalidPath := by
  refine ⟨rfl, ?_, rfl, rfl⟩
  decide

/-- C4 evaluation: for the relative input `a/b`, the recursive branch
of `createDir` passes the raw prefixes `a` and `a/b` to native `mkdir`;
none of them is absolute, whereas `_resolve` (Node `path.resolve`)
always yields an absolute path and would have produced a different
argument. -/
theorem createDir_recursive_unresolved :
    createDirRecursiveMkdirArgs { absolute := false, segs := ["a", "b"] }
        = [ { absolute := false, segs := ["a"] }
          , { absolute := false, segs := ["a", "b"] } ]
    ∧ ((createDirRecursiveMkdirArgs { absolute := false, segs := ["a", "b"] }).all
        (fun q => !q.absolute)) = true
    ∧ (fsPathResolve { absolute := true, segs := ["cwd"] }
        { absolute := false, segs := ["a"] }).absolute = true
    ∧ fsPathResolve { absolute := true, segs := ["cwd"] }
        { absolute := false, segs := ["a"] }
        ≠ { absolute := false, segs := ["a"] } := by
  refine ⟨rfl, rfl, rfl, ?_⟩
  decide

/-- C5: two `in` calls before any operation leave only the second
override: the next dispatched operation runs against the second driver,
and the one after that against the default. -/
theorem override_replaced_not_queued {δ α β : Type} :
    ∀ (A B1 B2 : δ) (op : δ → α) (op2 : δ → β),
      Filesystem.dispatch (((Filesystem.new A).in' B1).in' B2) op
          = (op B2, Filesystem.new A)
      ∧ Filesystem.dispatch
          (Filesystem.dispatch (((Filesystem.new A).in' B1).in' B2) op).2 op2
          = (op2 A, Filesystem.new A) := by
  intro A B1 B2 op op2
  exact ⟨rfl, rfl⟩

/-- C6: `exists` is a total boolean observation (the model's `Bool`
return type captures that the source promise only resolves): it is
false when the path is absent, false when the path is present but the
access probe fails, and true otherwise. -/
theorem exists_never_fails :
    ∀ (fs : FSState) (p : SPath),
      (lookupEntry fs p = none → Local.exists' fs p = false)
      ∧ (∀ e : Entry, lookupEntry fs p = some e → e.accessOk = false →
          Local.exists' fs p = false)
      ∧ (∀ e : Entry, lookupEntry fs p = some e → e.accessOk = true →
          Local.exists' fs p = true) := by
  intro fs p
  exact ⟨fun h => by simp [Local.exists', h],
         fun e h ha => by simp [Local.exists', h, ha],
         fun e h ha => by simp [Local.exists', h, ha]⟩

/-- C6 witness: an absent path, an unreadable present path, and a
readable present path, on the sample filesystem. -/
theorem exists_never_fails_witness :
    Local.exists' sampleFS ["zz"] = false
    ∧ Local.exists' sampleFS ["u"] = false
    ∧ Local.exists' sampleFS ["a"] = true :=
  ⟨(exists_never_fails sampleFS ["zz"]).1 (by decide),
   (exists_never_fails sampleFS ["u"]).2.1 entryUnreadable (by decide) (by decide),
   (exists_never_fails sampleFS ["a"]).2.2 (entryFile ("hello")) (by decide)
     (by decide)⟩

/-- C7: non-recursive `createDir` rejects with `FileExists` whenever
the path exists (in the driver's sense: present and readable); and on a
fresh path two successive recursive `createDir` calls both succeed,
the second changing nothing because every pre-existing segment's mkdir
is silently skipped. -/
theorem createDir_exists_and_recursive_idempotent :
    (∀ (fs : FSState) (p : SPath) (mode : Nat),
        Local.exists' fs p = true →
        Local.createDir fs p mode false = .error .fileExists)
    ∧ (∀ (fs : FSState) (p : SPath) (m1 m2 : Nat),
        Local.exists' fs p = false →
        ∃ fs1, Local.createDir fs p m1 true = .ok fs1
          ∧ Local.createDir fs1 p m2 true = .ok fs1) := by
  constructor
  · intro fs p mode h
    simp [Local.createDir, h]
  · intro fs p m1 m2 _
    refine ⟨Local.mkSegs fs [] p, rfl, ?_⟩
    show Except.ok (Local.mkSegs (Local.mkSegs fs [] p) [] p)
        = Except.ok (Local.mkSegs fs [] p)
    rw [mkSegs_idem p [] fs]

/-- C7 witness: an existing directory rejects non-recursively, and the
fresh path `["x", "y"]` on the empty filesystem is created recursively
twice without failure. -/
theorem createDir_exists_and_recursive_idempotent_witness :
    Local.createDir sampleFS ["d"] 511 false = .error .fileExists
    ∧ ∃ fs1, Local.createDir ([] : FSState) ["x", "y"] 511 true = .ok fs1
        ∧ Local.createDir fs1 ["x", "y"] 511 true = .ok fs1 :=
  ⟨createDir_exists_and_recursive_idempotent.1 sampleFS ["d"] 511 (by decide),
   createDir_exists_and_recursive_idempotent.2 ([] : FSState) ["x", "y"] 511 511
     (by decide)⟩

/-- C8: writing to a path that already holds a readable regular file
and then reading it back returns exactly the written data. -/
theorem write_read_roundtrip :
    ∀ (fs : FSState) (p : SPath) (c d : String),
      lookupEntry fs p = some (entryFile c) →
      ∃ fs2, Local.write fs p d = .ok fs2 ∧ Local.read fs2 p = .ok d := by
  intro fs p c d hl
  refine ⟨setEntry fs p (entryFile d), ?_, ?_⟩
  · simp [Local.write, Local.isFile, Local.exists', Local.lstatKind, hl,
      Local.nativeWriteFile, entryFile]
  · have h2 : lookupEntry
        (setEntry fs p { kind := EntryKind.file d, accessOk := true }) p
        = some { kind := EntryKind.file d, accessOk := true } :=
      lookupEntry_setEntry_self fs p _
    simp [Local.read, Local.isFile, Local.exists', Local.lstatKind, h2,
      Local.nativeReadFile, entryFile]

/-- C8 witness: overwrite the sample file and read the new contents
back. -/
theorem write_read_roundtrip_witness :
    ∃ fs2, Local.write sampleFS ["a"] ("new") = .ok fs2
      ∧ Local.read fs2 ["a"] = .ok ("new") :=
  write_read_roundtrip sampleFS ["a"] ("hello") ("new") (by decide)

/-- C10: on a path holding a symbolic link (with an accessible target,
so the `exists` precondition passes), `isSymbolicLink` is true while
`isFile` and `isDirectory` are both false, whatever kind of entry the
link targets — all three checks `lstat` the link itself. -/
theorem symlink_kind_checks :
    ∀ (fs : FSState) (p : SPath) (targetIsDir : Bool),
      lookupEntry fs p = some (entryLink targetIsDir) →
      Local.isSymbolicLink fs p = .ok true
      ∧ Local.isFile fs p = .ok false
      ∧ Local.isDirectory fs p = .ok false := by
  intro fs p t hl
  refine ⟨?_, ?_, ?_⟩ <;>
    simp [Local.isSymbolicLink, Local.isFile, Local.isDirectory,
      Local.exists', Local.lstatKind, hl, entryLink]

/-- C10 witness: the sample symbolic link. -/
theorem symlink_kind_checks_witness :
    Local.isSymbolicLink sampleFS ["l"] = .ok true
    ∧ Local.isFile sampleFS ["l"] = .ok false
    ∧ Local.isDirectory sampleFS ["l"] = .ok false :=
  symlink_kind_checks sampleFS ["l"] false (by decide)

/-- The kind projection of a sample directory entry. -/
theorem entryDir_kind : entryDir.kind = EntryKind.dir := rfl

/-- The access projection of a sample directory entry. -/
theorem entryDir_accessOk : entryDir.accessOk = true := rfl

/-- The kind projection of a sample file entry. -/
theorem entryFile_kind (c : String) : (entryFile c).kind = EntryKind.file c := rfl

/-- The access projection of a sample file entry. -/
theorem entryFile_accessOk (c : String) : (entryFile c).accessOk = true := rfl

/-- A path is never its own direct child. -/
theorem childOf_self (p : SPath) : childOf p p = none := by
  simp [childOf, List.drop_length]

/-- A path extended by one segment is its direct child, named by that
segment. -/
theorem childOf_append (p : SPath) (a : String) :
    childOf p (p ++ [a]) = some a := by
  simp [childOf, List.drop_left, List.take_left]

/-- A path no longer than `p` is not a direct child of `p`. -/
theorem childOf_short (p k : SPath) (h : k.length ≤ p.length) :
    childOf p k = none := by
  have hd : k.drop p.length = [] := List.drop_eq_nil_of_le h
  simp [childOf, hd]

/-- One iteration of the `deleteAll` loop: with the `isFile` check and
the chosen deletion's outcome known, the loop advances to the rest of
the listing over the updated state. -/
theorem deleteAllLoop_cons (recurse : FSState → SPath → Except FsError FSState)
    (fs fs2 : FSState) (p : SPath) (file : String) (rest : List String)
    (f : Bool) (hf : Local.isFile fs (p ++ [file]) = .ok f)
    (hd : (if f then Local.delete fs (p ++ [file])
           else recurse fs (p ++ [file])) = .ok fs2) :
    Local.deleteAllLoop recurse fs p (file :: rest)
      = Local.deleteAllLoop recurse fs2 p rest := by
  simp only [Local.deleteAllLoop, hf, hd]

/-- Unfolding one level of `deleteAll`: with the listing and the loop's
outcome known, what remains is the final `delete` of the directory
itself. -/
theorem deleteAll_step (fuel : Nat) (fs fs2 : FSState) (p : SPath)
    (files : List String)
    (hrd : Local.readDir fs p = .ok files)
    (hloop : Local.deleteAllLoop (fun st q => Local.deleteAll fuel st q) fs p files
      = .ok fs2) :
    Local.deleteAll (fuel + 1) fs p = Local.delete fs2 p := by
  simp only [Local.deleteAll, hrd, hloop]

/-- C9: `deleteAll` on a directory holding exactly one regular file and
one empty subdirectory succeeds, and afterwards neither the directory,
nor the file, nor the subdirectory exists. -/
theorem deleteAll_dir_file_subdir :
    ∀ (dir : SPath) (f s c : String), f ≠ s →
      ∃ fs3,
        Local.deleteAll 2
            [(dir, entryDir), (dir ++ [f], entryFile c), (dir ++ [s], entryDir)]
            dir
          = .ok fs3
        ∧ Local.exists' fs3 dir = false
        ∧ Local.exists' fs3 (dir ++ [f]) = false
        ∧ Local.exists' fs3 (dir ++ [s]) = false := by
  intro dir f s c hfs
  have hA : dir ≠ dir ++ [f] := (append_singleton_ne dir f).symm
  have hB : dir ≠ dir ++ [s] := (append_singleton_ne dir s).symm
  have hC : dir ++ [f] ≠ dir ++ [s] := append_singleton_ne_of_ne dir hfs
  have l0d : lookupEntry
      [(dir, entryDir), (dir ++ [f], entryFile c), (dir ++ [s], entryDir)] dir
      = some entryDir := by
    simp [lookupEntry]
  have l0f : lookupEntry
      [(dir, entryDir), (dir ++ [f], entryFile c), (dir ++ [s], entryDir)]
      (dir ++ [f]) = some (entryFile c) := by
    simp [lookupEntry, hA]
  have ch0 : childrenNames
      [(dir, entryDir), (dir ++ [f], entryFile c), (dir ++ [s], entryDir)] dir
      = [f, s] := by
    simp [childrenNames, childOf_self, childOf_append]
  have hrd0 : Local.readDir
      [(dir, entryDir), (dir ++ [f], entryFile c), (dir ++ [s], entryDir)] dir
      = .ok [f, s] := by
    simp [Local.readDir, Local.exists', Local.nativeReaddir, Local.lstatKind,
      l0d, entryDir_kind, entryDir_accessOk, ch0]
  have hif0 : Local.isFile
      [(dir, entryDir), (dir ++ [f], entryFile c), (dir ++ [s], entryDir)]
      (dir ++ [f]) = .ok true := by
    simp [Local.isFile, Local.exists', Local.lstatKind, l0f, entryFile_kind,
      entryFile_accessOk]
  have r1 : removeEntry
      [(dir, entryDir), (dir ++ [f], entryFile c), (dir ++ [s], entryDir)]
      (dir ++ [f]) = [(dir, entryDir), (dir ++ [s], entryDir)] := by
    simp [removeEntry, hA, hC.symm]
  have hd1 : Local.delete
      [(dir, entryDir), (dir ++ [f], entryFile c), (dir ++ [s], entryDir)]
      (dir ++ [f]) = .ok [(dir, entryDir), (dir ++ [s], entryDir)] := by
    simp [Local.delete, Local.isFile, Local.exists', Local.lstatKind, l0f,
      Local.nativeUnlink, entryFile_kind, entryFile_accessOk, r1]
  have l1s : lookupEntry [(dir, entryDir), (dir ++ [s], entryDir)] (dir ++ [s])
      = some entryDir := by
    simp [lookupEntry, hB]
  have hif1 : Local.isFile [(dir, entryDir), (dir ++ [s], entryDir)]
      (dir ++ [s]) = .ok false := by
    simp [Local.isFile, Local.exists', Local.lstatKind, l1s, entryDir_kind,
      entryDir_accessOk]
  have ch1 : childrenNames [(dir, entryDir), (dir ++ [s], entryDir)]
      (dir ++ [s]) = [] := by
    have h1 : childOf (dir ++ [s]) dir = none :=
      childOf_short _ _ (by simp)
    simp [childrenNames, h1, childOf_self]
  have hrd1 : Local.readDir [(dir, entryDir), (dir ++ [s], entryDir)]
      (dir ++ [s]) = .ok [] := by
    simp [Local.readDir, Local.exists', Local.nativeReaddir, Local.lstatKind,
      l1s, entryDir_kind, entryDir_accessOk, ch1]
  have r2 : removeEntry [(dir, entryDir), (dir ++ [s], entryDir)] (dir ++ [s])
      = [(dir, entryDir)] := by
    simp [removeEntry, hB]
  have hd2 : Local.delete [(dir, entryDir), (dir ++ [s], entryDir)]
      (dir ++ [s]) = .ok [(dir, entryDir)] := by
    simp [Local.delete, Local.isFile, Local.isSymbolicLink, Local.isDirectory,
      Local.exists', Local.lstatKind, l1s, entryDir_kind, entryDir_accessOk,
      Local.nativeRmdir, ch1, r2]
  have hin : Local.deleteAll 1 [(dir, entryDir), (dir ++ [s], entryDir)]
      (dir ++ [s]) = .ok [(dir, entryDir)] := by
    rw [show (1 : Nat) = 0 + 1 from rfl]
    rw [deleteAll_step 0 [(dir, entryDir), (dir ++ [s], entryDir)]
      [(dir, entryDir), (dir ++ [s], entryDir)] (dir ++ [s]) [] hrd1 rfl]
    exact hd2
  have hloop2 : Local.deleteAllLoop (fun st q => Local.deleteAll 1 st q)
      [(dir, entryDir), (dir ++ [s], entryDir)] dir [s]
      = .ok [(dir, entryDir)] := by
    rw [deleteAllLoop_cons (fun st q => Local.deleteAll 1 st q)
      [(dir, entryDir), (dir ++ [s], entryDir)] [(dir, entryDir)] dir s []
      false hif1 hin]
    rfl
  have hloop1 : Local.deleteAllLoop (fun st q => Local.deleteAll 1 st q)
      [(dir, entryDir), (dir ++ [f], entryFile c), (dir ++ [s], entryDir)]
      dir [f, s] = .ok [(dir, entryDir)] := by
    rw [deleteAllLoop_cons (fun st q => Local.deleteAll 1 st q)
      [(dir, entryDir), (dir ++ [f], entryFile c), (dir ++ [s], entryDir)]
      [(dir, entryDir), (dir ++ [s], entryDir)] dir f [s] true hif0 hd1]
    exact hloop2
  refine ⟨[], ?_, rfl, rfl, rfl⟩
  rw [show (2 : Nat) = 1 + 1 from rfl]
  rw [deleteAll_step 1
    [(dir, entryDir), (dir ++ [f], entryFile c), (dir ++ [s], entryDir)]
    [(dir, entryDir)] dir [f, s] hrd0 hloop1]
  have ch2 : childrenNames [(dir, entryDir)] dir = [] := by
    simp [childrenNames, childOf_self]
  simp [Local.delete, Local.isFile, Local.isSymbolicLink, Local.isDirectory,
    Local.exists', Local.lstatKind, lookupEntry, entryDir_kind, entryDir_accessOk,
    Local.nativeRmdir, ch2, removeEntry]

/-- C9 witness: a concrete directory with one file and one empty
subdirectory. -/
theorem deleteAll_dir_file_subdir_witness :
    ∃ fs3,
      Local.deleteAll 2
          [(["dd"], entryDir), (["dd"] ++ ["f"], entryFile ("c")),
            (["dd"] ++ ["sub"], entryDir)]
          ["dd"]
        = .ok fs3
      ∧ Local.exists' fs3 ["dd"] = false
      ∧ Local.exists' fs3 (["dd"] ++ ["f"]) = false
      ∧ Local.exists' fs3 (["dd"] ++ ["sub"]) = false :=
  deleteAll_dir_file_subdir ["dd"] "f" "sub" "c" (by decide)

end SFS
